import Mathlib

/-!
# Verification of the Movie-Recommendation lookup engine

A shallow embedding of the query-time core of `src/app.py`
(`get_recommendations`, lines 171-191) and of the data-loading guard
(`load_movies_data` / `load_similarity_matrix` / the `st.stop()` gate,
lines 141-168), together with proofs of the behavioural properties of the
specification.

Modelling choices:
* the movie catalog (`movies['title'].values`) is a `List String`;
* the similarity matrix is a `List (List ℚ)`; float scores are modelled as
  rationals;
* Python's stable `sorted(..., key=lambda x: x[1], reverse=True)` is modelled
  as `List.insertionSort` with the relation "greater-or-equal score": a stable
  sort is uniquely determined by the comparison key and the input order, so
  any stable sort gives the Python result;
* Python exceptions inside the `try:` block are modelled with
  `Except String`, the carried string standing for `str(e)`;
* `round(x, 1)` (Python round-half-to-even to one decimal digit) is modelled
  by `round1`.
-/

namespace MovieRec

/-- One entry of the result list built by `get_recommendations`
(src/app.py lines 183-186): `{'title': ..., 'similarity_score': ...}`. -/
structure RecEntry where
  title : String
  similarity_score : ℚ
  deriving DecidableEq, Repr

/-- Python's `round` to an integer: round half to even (banker's rounding). -/
def roundHalfEven (q : ℚ) : ℤ :=
  if q - ⌊q⌋ < 1/2 then ⌊q⌋
  else if 1/2 < q - ⌊q⌋ then ⌊q⌋ + 1
  else if ⌊q⌋ % 2 = 0 then ⌊q⌋ else ⌊q⌋ + 1

/-- Python's `round(x, 1)`: round to one decimal digit, ties to even. -/
def round1 (q : ℚ) : ℚ := (roundHalfEven (q * 10) : ℚ) / 10

/-- The displayed score of src/app.py line 185: `round(i[1] * 100, 1)`. -/
def displayScore (q : ℚ) : ℚ := round1 (q * 100)

/-- Python list slicing `l[start:stop]` (step 1): negative indices count from
the end, then both endpoints are clamped to `[0, len(l)]`. -/
def pySlice {α : Type} (l : List α) (start stop : ℤ) : List α :=
  (l.take (if stop < 0 then max ((l.length : ℤ) + stop) 0
            else min stop (l.length : ℤ)).toNat).drop
    (if start < 0 then max ((l.length : ℤ) + start) 0
      else min start (l.length : ℤ)).toNat

/-- The comparison used at src/app.py line 179:
`sorted(..., key=lambda x: x[1], reverse=True)` keeps `a` before `b`
exactly when `a`'s score is at least `b`'s score. -/
def scoreGE (a b : ℕ × ℚ) : Prop := b.2 ≤ a.2

instance : DecidableRel scoreGE := fun a b => inferInstanceAs (Decidable (b.2 ≤ a.2))

instance : IsTotal (ℕ × ℚ) scoreGE := ⟨fun a b => le_total b.2 a.2⟩

instance : IsTrans (ℕ × ℚ) scoreGE := ⟨fun _ _ _ h1 h2 => le_trans h2 h1⟩

/-- From src/app.py line 177: `movies[movies['title'] == movie_title].index[0]`,
the first catalog position whose title equals the query. -/
def movieIndexOf (movies : List String) (t : String) : ℕ :=
  movies.findIdx (· == t)

/-- From src/app.py lines 178-179: `distances = list(enumerate(similarity[movie_index]))`
followed by the stable descending sort on the score component. -/
def sortedDistances (row : List ℚ) : List (ℕ × ℚ) :=
  List.insertionSort scoreGE row.enum

/-- From src/app.py line 182: the slice `distances[1:num_recommendations+1]` of the
sorted sequence. -/
def selectedPairs (row : List ℚ) (num : ℤ) : List (ℕ × ℚ) :=
  pySlice (sortedDistances row) 1 (num + 1)

/-- From src/app.py lines 181-187: the loop building `recommended_movies`.
`movies.iloc[i[0]].title` raises (modelled by `.error`) when the catalog
position is out of range; otherwise the entry is appended. -/
def recTitles (movies : List String) : List (ℕ × ℚ) → Except String (List RecEntry)
  | [] => .ok []
  | p :: rest =>
    match movies[p.1]? with
    | some t =>
      match recTitles movies rest with
      | .ok recs => .ok (⟨t, displayScore p.2⟩ :: recs)
      | .error e => .error e
    | none => .error "single positional indexer is out-of-bounds"

/-- The body of the `try:` block of src/app.py lines 176-189, with the catalog
row position made explicit: read row `i` of the matrix (an `IndexError` is
modelled by `.error`), sort it, slice it, and resolve titles. -/
def recommendAt (movies : List String) (similarity : List (List ℚ))
    (i : ℕ) (num : ℤ) : Except String (List RecEntry) :=
  match similarity[i]? with
  | some row => recTitles movies (selectedPairs row num)
  | none => .error "list index out of range"

/-- From src/app.py lines 176-189: the `try:` block, looking up the query index
with `movieIndexOf`. -/
def recommendCore (movies : List String) (similarity : List (List ℚ))
    (movie_title : String) (num : ℤ) : Except String (List RecEntry) :=
  recommendAt movies similarity (movieIndexOf movies movie_title) num

/-- From src/app.py lines 189-191: a normal completion returns `(list, None)`;
a caught exception returns `([], "Error generating recommendations: <str(e)>")`. -/
def wrapCore (r : Except String (List RecEntry)) : List RecEntry × Option String :=
  match r with
  | .ok recs => (recs, none)
  | .error e => ([], some ("Error generating recommendations: " ++ e))

/-- From src/app.py lines 171-191, `get_recommendations`: the guard of lines
173-174 returns the not-found message before any matrix access; otherwise the
`try:` block runs and its outcome is wrapped by `wrapCore`. -/
def get_recommendations (movies : List String) (similarity : List (List ℚ))
    (movie_title : String) (num_recommendations : ℤ := 5) :
    List RecEntry × Option String :=
  if movie_title ∈ movies then
    wrapCore (recommendCore movies similarity movie_title num_recommendations)
  else
    ([], some "Movie not found in database!")

/-- From src/app.py lines 141-149, `load_movies_data`: a missing artifact
(`FileNotFoundError`, modelled by `none`) yields an empty catalog. -/
def load_movies_data (artifact : Option (List String)) : List String :=
  artifact.getD []

/-- From src/app.py lines 151-157, `load_similarity_matrix`: a missing artifact
yields `None`. -/
def load_similarity_matrix (artifact : Option (List (List ℚ))) :
    Option (List (List ℚ)) :=
  artifact

/-- From src/app.py lines 164-168: after loading, queries are served unless the
catalog is empty or the similarity matrix is `None` (`st.stop()`). -/
def serves_queries (movies : List String) (similarity : Option (List (List ℚ))) :
    Bool :=
  !movies.isEmpty && similarity.isSome

/-- The whole start-up path: load both artifacts, then apply the
lines-164-168 gate. -/
def app_accepts_queries (moviesArtifact : Option (List String))
    (simArtifact : Option (List (List ℚ))) : Bool :=
  serves_queries (load_movies_data moviesArtifact)
    (load_similarity_matrix simArtifact)

/-! ## Basic facts about the sorted candidate sequence -/

theorem length_sortedDistances (row : List ℚ) :
    (sortedDistances row).length = row.length := by
  simp [sortedDistances, List.length_insertionSort]

theorem sortedDistances_perm (row : List ℚ) :
    List.Perm (sortedDistances row) row.enum :=
  List.perm_insertionSort _ _

theorem sortedDistances_pairwise (row : List ℚ) :
    (sortedDistances row).Pairwise scoreGE :=
  List.sorted_insertionSort _ _

theorem enum_nodup (row : List ℚ) : row.enum.Nodup := by
  have h := List.nodup_range row.length
  rw [← List.enum_map_fst] at h
  exact h.of_map _

theorem sortedDistances_nodup (row : List ℚ) : (sortedDistances row).Nodup :=
  ((sortedDistances_perm row).nodup_iff).mpr (enum_nodup row)

theorem mem_sortedDistances {row : List ℚ} {p : ℕ × ℚ}
    (h : p ∈ sortedDistances row) : row[p.1]? = some p.2 := by
  have h1 := (sortedDistances_perm row).mem_iff.mp h
  rw [List.mem_enum_iff_getElem?] at h1
  exact h1

/-! ## Facts about Python slicing as used at line 182 -/

theorem pySlice_sublist {α : Type} (l : List α) (start stop : ℤ) :
    (pySlice l start stop).Sublist l := by
  unfold pySlice
  exact (List.drop_sublist _ _).trans (List.take_sublist _ _)

theorem pySlice_one_sublist_drop {α : Type} (l : List α) (stop : ℤ) :
    (pySlice l 1 stop).Sublist (l.drop 1) := by
  cases l with
  | nil => simp [pySlice]
  | cons a l =>
    unfold pySlice
    rw [if_neg (by norm_num)]
    have h2 : (min (1 : ℤ) ((a :: l).length : ℤ)).toNat = 1 := by
      simp [List.length_cons]
    rw [h2, List.drop_take]
    exact List.take_sublist _ _

theorem pySlice_one_drop_take {α : Type} (l : List α) {stop : ℤ} (h : 0 ≤ stop) :
    pySlice l 1 stop = (l.drop 1).take (stop.toNat - 1) := by
  cases l with
  | nil => simp [pySlice]
  | cons a l =>
    unfold pySlice
    rw [if_neg (by norm_num), if_neg (by omega)]
    have h2 : (min (1 : ℤ) ((a :: l).length : ℤ)).toNat = 1 := by
      simp [List.length_cons]
    rw [h2, List.drop_take]
    rw [List.take_eq_take]
    simp only [List.length_drop, List.length_cons]
    omega

theorem pySlice_one_length_of_nonneg {α : Type} (l : List α) {stop : ℤ}
    (h : 0 ≤ stop) :
    (pySlice l 1 stop).length
      = (min stop (l.length : ℤ)).toNat - (min 1 (l.length : ℤ)).toNat := by
  unfold pySlice
  rw [if_neg (by norm_num), if_neg (by omega)]
  simp only [List.length_drop, List.length_take]
  omega

theorem pySlice_one_length_le {α : Type} (l : List α) (stop : ℤ) :
    (pySlice l 1 stop).length ≤ l.length - 1 := by
  unfold pySlice
  rw [if_neg (by norm_num)]
  split_ifs with h
  · simp only [List.length_drop, List.length_take]
    omega
  · simp only [List.length_drop, List.length_take]
    omega

/-! ## Facts about the title-resolution loop (lines 181-187) -/

theorem recTitles_ok (movies : List String) (sel : List (ℕ × ℚ))
    (h : ∀ p ∈ sel, p.1 < movies.length) :
    recTitles movies sel
      = .ok (sel.map fun p => ⟨movies.getD p.1 "", displayScore p.2⟩) := by
  induction sel with
  | nil => rfl
  | cons p rest ih =>
    have hp : p.1 < movies.length := h p (by simp)
    have hr := ih (fun q hq => h q (by simp [hq]))
    rw [recTitles, List.getElem?_eq_getElem hp, hr]
    simp [List.getD_eq_getElem?_getD, List.getElem?_eq_getElem hp]

theorem recTitles_ok_scores (movies : List String) (sel : List (ℕ × ℚ))
    (recs : List RecEntry) (h : recTitles movies sel = .ok recs) :
    recs.map RecEntry.similarity_score = sel.map fun p => displayScore p.2 := by
  induction sel generalizing recs with
  | nil =>
    rw [recTitles] at h
    cases h
    rfl
  | cons p rest ih =>
    rw [recTitles] at h
    cases hm : movies[p.1]? with
    | none => rw [hm] at h; cases h
    | some t =>
      rw [hm] at h
      cases hr : recTitles movies rest with
      | error e => rw [hr] at h; cases h
      | ok recs' =>
        rw [hr] at h
        cases h
        simp [ih recs' hr]

/-! ## The success path of `get_recommendations` on well-shaped data -/

theorem mem_selectedPairs_lt {row : List ℚ} {num : ℤ} {p : ℕ × ℚ}
    (h : p ∈ selectedPairs row num) : p.1 < row.length := by
  have h1 : p ∈ sortedDistances row :=
    (pySlice_sublist (sortedDistances row) 1 (num + 1)).mem h
  have h2 := mem_sortedDistances h1
  obtain ⟨hlt, -⟩ := List.getElem?_eq_some.mp h2
  exact hlt

theorem get_recommendations_ok (movies : List String) (sim : List (List ℚ))
    (t : String) (row : List ℚ) (k : ℤ) (hmem : t ∈ movies)
    (hrow : sim[movieIndexOf movies t]? = some row)
    (hsq : row.length = movies.length) :
    get_recommendations movies sim t k
      = ((selectedPairs row k).map
          (fun p => ⟨movies.getD p.1 "", displayScore p.2⟩), none) := by
  unfold get_recommendations recommendCore recommendAt
  rw [if_pos hmem, hrow]
  show wrapCore (recTitles movies (selectedPairs row k)) = _
  rw [recTitles_ok movies (selectedPairs row k)
    (fun p hp => hsq ▸ mem_selectedPairs_lt hp)]
  rfl

/-! ## Monotonicity of the displayed (rounded) score -/

theorem roundHalfEven_ge_floor (q : ℚ) : ⌊q⌋ ≤ roundHalfEven q := by
  unfold roundHalfEven
  split_ifs <;> omega

theorem roundHalfEven_le_floor_add_one (q : ℚ) : roundHalfEven q ≤ ⌊q⌋ + 1 := by
  unfold roundHalfEven
  split_ifs <;> omega

theorem roundHalfEven_mono {x y : ℚ} (h : x ≤ y) :
    roundHalfEven x ≤ roundHalfEven y := by
  rcases lt_or_le ⌊x⌋ ⌊y⌋ with hf | hf
  · calc roundHalfEven x ≤ ⌊x⌋ + 1 := roundHalfEven_le_floor_add_one x
      _ ≤ ⌊y⌋ := by omega
      _ ≤ roundHalfEven y := roundHalfEven_ge_floor y
  · have hfe : ⌊x⌋ = ⌊y⌋ := le_antisymm (Int.floor_le_floor h) hf
    unfold roundHalfEven
    rw [hfe]
    have hxy : x - (⌊y⌋ : ℚ) ≤ y - (⌊y⌋ : ℚ) := by linarith
    split_ifs <;> first | omega | (exfalso; linarith)

theorem round1_mono {x y : ℚ} (h : x ≤ y) : round1 x ≤ round1 y := by
  unfold round1
  have h10 : x * 10 ≤ y * 10 := by linarith
  have h2 : (roundHalfEven (x * 10) : ℚ) ≤ (roundHalfEven (y * 10) : ℚ) := by
    exact_mod_cast roundHalfEven_mono h10
  linarith

theorem displayScore_mono {x y : ℚ} (h : x ≤ y) :
    displayScore x ≤ displayScore y :=
  round1_mono (by linarith)

/-! ## Claims -/

/-- C5: for every title absent from the catalog and every `k`, the engine
returns the user-facing "movie not found" failure: the empty list paired with
the message `Movie not found in database!`. The right-hand side does not
mention the similarity matrix, which is universally quantified: the early
return at lines 173-174 never touches the matrix. -/
theorem unknown_title_returns_not_found (movies : List String)
    (similarity : List (List ℚ)) (t : String) (k : ℤ) (h : t ∉ movies) :
    get_recommendations movies similarity t k
      = ([], some "Movie not found in database!") := by
  unfold get_recommendations
  rw [if_neg h]

/-- C5 witness: the spec's concrete probe, `recommend("Nonexistent Movie XYZ", 5)`
against a two-title catalog. -/
theorem unknown_title_returns_not_found_witness :
    "Nonexistent Movie XYZ" ∉ (["A", "B"] : List String) ∧
    get_recommendations ["A", "B"] [[1, 0], [0, 1]] "Nonexistent Movie XYZ" 5
      = ([], some "Movie not found in database!") :=
  ⟨by decide,
    unknown_title_returns_not_found ["A", "B"] [[1, 0], [0, 1]]
      "Nonexistent Movie XYZ" 5 (by decide)⟩

/-- C10: `get_recommendations` is total and exception-free: every call
returns either a success (second component `None`) or an empty list paired
with a non-empty message, which is either the not-found message or the
`Error generating recommendations: ...` wrapper of a caught exception. -/
theorem get_recommendations_total_shape (movies : List String)
    (similarity : List (List ℚ)) (t : String) (k : ℤ) :
    (get_recommendations movies similarity t k).2 = none ∨
      ((get_recommendations movies similarity t k).1 = [] ∧
        ∃ m, (get_recommendations movies similarity t k).2 = some m ∧ m ≠ "" ∧
          (m = "Movie not found in database!" ∨
            ∃ e, m = "Error generating recommendations: " ++ e)) := by
  unfold get_recommendations
  by_cases hmem : t ∈ movies
  · rw [if_pos hmem]
    cases h : recommendCore movies similarity t k with
    | ok recs => left; simp [wrapCore]
    | error e =>
      right
      refine ⟨rfl, "Error generating recommendations: " ++ e, rfl, ?_, Or.inr ⟨e, rfl⟩⟩
      intro hc
      have hlen := congrArg String.length hc
      rw [String.length_append] at hlen
      have h35 : ("Error generating recommendations: ").length = 34 := by decide
      have h0 : ("" : String).length = 0 := by decide
      omega
  · rw [if_neg hmem]
    exact Or.inr ⟨rfl, _, rfl, by decide, Or.inl rfl⟩

/-- C3: the engine removes the element at sorted position 0 unconditionally,
not the element whose catalog index equals the query index: for every row and
non-negative request the selection is literally "drop the head of the
score-sorted sequence, then take `num`", with no reference to the query; and
on the concrete catalog `["A", "B"]` where the row for `"A"` is `[0.2, 0.9]`
(self-score not maximal), the head of the sorted sequence is catalog index 1
— so the dropped item differs from the query (index 0) — and the query item
itself is returned. -/
theorem drops_sorted_position_zero :
    (∀ (row : List ℚ) (num : ℤ), 0 ≤ num →
      selectedPairs row num = ((sortedDistances row).drop 1).take num.toNat) ∧
    movieIndexOf ["A", "B"] "A" = 0 ∧
    (sortedDistances [1/5, 9/10])[0]? = some (1, 9/10) ∧
    get_recommendations ["A", "B"] [[1/5, 9/10], [9/10, 1]] "A" 1
      = ([⟨"A", 20⟩], none) := by
  refine ⟨?_, by decide, ?_, ?_⟩
  · intro row num h
    rw [selectedPairs, pySlice_one_drop_take _ (by omega)]
    congr 1
    omega
  · norm_num [sortedDistances, List.insertionSort, List.orderedInsert,
      List.enum, List.enumFrom, scoreGE]
  · norm_num [get_recommendations, recommendCore, recommendAt, movieIndexOf,
      sortedDistances, selectedPairs, pySlice, recTitles, wrapCore,
      displayScore, round1, roundHalfEven, List.insertionSort,
      List.orderedInsert, List.enum, List.enumFrom, List.findIdx,
      List.findIdx.go, scoreGE]

/-- C3 witness: the drop-the-head equation at a concrete row and request. -/
theorem drops_sorted_position_zero_witness :
    selectedPairs [1/5, 9/10] 1
      = ((sortedDistances [1/5, 9/10]).drop 1).take (1 : ℤ).toNat :=
  drops_sorted_position_zero.1 [1/5, 9/10] 1 (by norm_num)

/-- The spec's example scenario evaluated on the code: catalog
`["A","B","C","D"]`, row for `"A"` equal to `[1.0, 0.9, 0.5, 0.2]`,
`recommend("A", 2)` returns titles `B` then `C` with the rescaled display
scores `90.0` and `50.0`. -/
theorem example_scenario_eval :
    get_recommendations ["A", "B", "C", "D"]
      [[1, 9/10, 1/2, 1/5], [9/10, 1, 2/5, 3/10],
        [1/2, 2/5, 1, 1/10], [1/5, 3/10, 1/10, 1]]
      "A" 2
      = ([⟨"B", 90⟩, ⟨"C", 50⟩], none) := by
  norm_num [get_recommendations, recommendCore, recommendAt, movieIndexOf,
    sortedDistances, selectedPairs, pySlice, recTitles, wrapCore,
    displayScore, round1, roundHalfEven, List.insertionSort,
    List.orderedInsert, List.enum, List.enumFrom, List.findIdx,
    List.findIdx.go, scoreGE]

/-- C4 counterexample: on the spec's example scenario the returned scores are
not `0.9` and `0.5` — the code rescales each score to a percentage at line
185 before returning it. -/
theorem example_scenario_counterexample :
    get_recommendations ["A", "B", "C", "D"]
      [[1, 9/10, 1/2, 1/5], [9/10, 1, 2/5, 3/10],
        [1/2, 2/5, 1, 1/10], [1/5, 3/10, 1/10, 1]]
      "A" 2
      ≠ ([⟨"B", 9/10⟩, ⟨"C", 1/2⟩], none) := by
  rw [example_scenario_eval]
  intro hc
  simp only [Prod.mk.injEq, List.cons.injEq, RecEntry.mk.injEq] at hc
  norm_num at hc

/-- C4 amended: the example scenario returns titles `B` then `C`, carrying the
percentage-rescaled scores `90.0` and `50.0` (the raw similarities `0.9` and
`0.5` times 100). -/
theorem example_scenario_amended :
    get_recommendations ["A", "B", "C", "D"]
      [[1, 9/10, 1/2, 1/5], [9/10, 1, 2/5, 3/10],
        [1/2, 2/5, 1, 1/10], [1/5, 3/10, 1/10, 1]]
      "A" 2
      = ([⟨"B", 90⟩, ⟨"C", 50⟩], none) :=
  example_scenario_eval

/-- C7 counterexample: a catalog of two titles loaded against a one-row
similarity matrix passes the start-up gate — the loader makes no
shape-consistency check — and queries are then served against the
inconsistent pair: the query at catalog index 1 is answered with a
per-request error message, and the query at index 0 even succeeds. -/
theorem shape_mismatch_counterexample :
    app_accepts_queries (some ["A", "B"]) (some [[1]]) = true ∧
    get_recommendations ["A", "B"] [[1]] "B" 5
      = ([], some "Error generating recommendations: list index out of range") ∧
    get_recommendations ["A", "B"] [[1]] "A" 5 = ([], none) := by
  refine ⟨by decide, by decide, ?_⟩
  · norm_num [get_recommendations, recommendCore, recommendAt, movieIndexOf,
      sortedDistances, selectedPairs, pySlice, recTitles, wrapCore,
      List.insertionSort, List.orderedInsert, List.enum, List.enumFrom,
      List.findIdx, List.findIdx.go]

/-- C7 amended: loading fails exactly when an artifact is missing or the
catalog is empty — artifact shapes are never compared — so an inconsistent
catalog/matrix pair is accepted, and a query whose matrix row does not exist
is answered per-request with the `list index out of range` error message
instead of being refused at load time. -/
theorem load_gate_checks_presence_only (moviesArtifact : Option (List String))
    (simArtifact : Option (List (List ℚ))) :
    (app_accepts_queries moviesArtifact simArtifact = true ↔
      (∃ m, moviesArtifact = some m ∧ m ≠ []) ∧ ∃ s, simArtifact = some s) ∧
    ∀ (movies : List String) (sim : List (List ℚ)) (t : String) (k : ℤ),
      t ∈ movies → sim[movieIndexOf movies t]? = none →
      get_recommendations movies sim t k
        = ([], some "Error generating recommendations: list index out of range") := by
  constructor
  · cases moviesArtifact with
    | none =>
      simp [app_accepts_queries, serves_queries, load_movies_data,
        load_similarity_matrix]
    | some m =>
      cases simArtifact with
      | none =>
        simp [app_accepts_queries, serves_queries, load_movies_data,
          load_similarity_matrix]
      | some s =>
        simp [app_accepts_queries, serves_queries, load_movies_data,
          load_similarity_matrix, List.isEmpty_iff]
  · intro movies sim t k hmem hrow
    unfold get_recommendations recommendCore recommendAt
    rw [if_pos hmem, hrow]
    rfl

/-- C7 amended witness: the gate accepts the mismatched pair and the orphan
query is answered with the per-request error. -/
theorem load_gate_checks_presence_only_witness :
    app_accepts_queries (some ["A", "B"]) (some [[1]]) = true ∧
    get_recommendations ["A", "B"] [[1]] "B" 5
      = ([], some "Error generating recommendations: list index out of range") :=
  ⟨((load_gate_checks_presence_only (some ["A", "B"]) (some [[1]])).1).mpr
      ⟨⟨["A", "B"], rfl, by decide⟩, ⟨[[1]], rfl⟩⟩,
    (load_gate_checks_presence_only (some ["A", "B"]) (some [[1]])).2
      ["A", "B"] [[1]] "B" 5 (by decide) rfl⟩

/-- C8: when a title occurs several times, the lookup resolves to the
occurrence with the smallest catalog index — the resolved position holds the
title, every smaller position does not — and for every matrix and request the
whole result is computed from that resolved row position. -/
theorem duplicate_title_resolves_first (movies : List String) (t : String)
    (hmem : t ∈ movies) :
    movies[movieIndexOf movies t]? = some t ∧
    (∀ j < movieIndexOf movies t, movies[j]? ≠ some t) ∧
    ∀ (sim : List (List ℚ)) (k : ℤ),
      get_recommendations movies sim t k
        = wrapCore (recommendAt movies sim (movieIndexOf movies t) k) := by
  have hlt : movieIndexOf movies t < movies.length := by
    unfold movieIndexOf
    exact List.findIdx_lt_length_of_exists ⟨t, hmem, by simp⟩
  refine ⟨?_, ?_, ?_⟩
  · rw [List.getElem?_eq_getElem hlt]
    have h1 : (movies[movieIndexOf movies t] == t) = true := by
      unfold movieIndexOf at hlt ⊢
      exact @List.findIdx_getElem _ (· == t) movies hlt
    simpa using h1
  · intro j hj
    have hjl : j < movies.length := lt_trans hj hlt
    rw [List.getElem?_eq_getElem hjl]
    have h2 : (movies[j] == t) = false := by
      unfold movieIndexOf at hj
      exact List.not_of_lt_findIdx hj
    simp at h2
    simp [h2]
  · intro sim k
    unfold get_recommendations recommendCore
    rw [if_pos hmem]

/-- C8 witness: a catalog with a duplicated title; the lookup picks index 1,
the first of the two occurrences of `"A"`. -/
theorem duplicate_title_resolves_first_witness :
    (["X", "A", "A"] : List String)[movieIndexOf ["X", "A", "A"] "A"]?
        = some "A" ∧
    (["X", "A", "A"] : List String)[0]? ≠ some "A" ∧
    get_recommendations ["X", "A", "A"] [[1, 0, 0], [0, 1, 0], [0, 0, 1]] "A" 5
      = wrapCore (recommendAt ["X", "A", "A"] [[1, 0, 0], [0, 1, 0], [0, 0, 1]]
          (movieIndexOf ["X", "A", "A"] "A") 5) := by
  have h := duplicate_title_resolves_first ["X", "A", "A"] "A" (by decide)
  exact ⟨h.1, h.2.1 0 (by decide), h.2.2 [[1, 0, 0], [0, 1, 0], [0, 0, 1]] 5⟩

/-- C2: the sort at line 179 is stable on the original enumeration order:
whenever two entries of the sorted candidate sequence carry exactly equal
similarity scores, the one appearing earlier has the smaller original catalog
index. Returned entries are a contiguous slice of this sequence, so the same
holds for any two returned entries. -/
theorem equal_scores_keep_index_order (row : List ℚ) (i j : ℕ) (a b : ℕ × ℚ)
    (ha : (sortedDistances row)[i]? = some a)
    (hb : (sortedDistances row)[j]? = some b)
    (hij : i < j) (heq : a.2 = b.2) : a.1 < b.1 := by
  obtain ⟨hi, hia⟩ := List.getElem?_eq_some.mp ha
  obtain ⟨hj, hjb⟩ := List.getElem?_eq_some.mp hb
  have hnd : (sortedDistances row).Nodup := sortedDistances_nodup row
  have hmema : a ∈ sortedDistances row := hia ▸ List.getElem_mem hi
  have hmemb : b ∈ sortedDistances row := hjb ▸ List.getElem_mem hj
  obtain ⟨ha1, ha2⟩ := List.getElem?_eq_some.mp (mem_sortedDistances hmema)
  obtain ⟨hb1, hb2⟩ := List.getElem?_eq_some.mp (mem_sortedDistances hmemb)
  have hab : a ≠ b := by
    intro hcontra
    have hia' : (sortedDistances row)[i] = (sortedDistances row)[j] := by
      rw [hia, hjb, hcontra]
    exact absurd (hnd.getElem_inj_iff.mp hia') (by omega)
  have hfst : a.1 ≠ b.1 := fun hf => hab (Prod.ext_iff.mpr ⟨hf, heq⟩)
  by_contra hlt
  have hba : b.1 < a.1 := by omega
  have hb1e : b.1 < row.enum.length := by simpa using hb1
  have ha1e : a.1 < row.enum.length := by simpa using ha1
  have hpair : ([⟨b.1, hb1e⟩, ⟨a.1, ha1e⟩] :
      List (Fin row.enum.length)).Pairwise (·.val < ·.val) :=
    List.pairwise_pair.mpr hba
  have hmap := List.map_get_sublist hpair
  have hgb : row.enum.get ⟨b.1, hb1e⟩ = b := by
    simp [List.get_eq_getElem, List.getElem_enum, hb2]
  have hga : row.enum.get ⟨a.1, ha1e⟩ = a := by
    simp [List.get_eq_getElem, List.getElem_enum, ha2]
  rw [List.map_cons, List.map_cons, List.map_nil, hgb, hga] at hmap
  have hge : scoreGE b a := le_of_eq heq
  have hsd : sortedDistances row = List.insertionSort scoreGE row.enum := rfl
  have hs2 : List.Sublist [b, a] (sortedDistances row) := by
    rw [hsd]
    exact List.pair_sublist_insertionSort hge hmap
  obtain ⟨is2, his2, hpw2⟩ := List.sublist_eq_map_get hs2
  match is2, his2, hpw2 with
  | [p, q], his2, hpw2 =>
    have hpq : p < q := by
      rw [List.pairwise_pair] at hpw2
      exact hpw2
    have hpqv : p.val < q.val := hpq
    simp only [List.map_cons, List.map_nil, List.cons.injEq, and_true] at his2
    obtain ⟨hbp', haq'⟩ := his2
    have hbp : (sortedDistances row)[p.val] = b := by
      simpa [List.get_eq_getElem] using hbp'.symm
    have haq : (sortedDistances row)[q.val] = a := by
      simpa [List.get_eq_getElem] using haq'.symm
    have hqi : q.val = i := hnd.getElem_inj_iff.mp (haq.trans hia.symm)
    have hpj : p.val = j := hnd.getElem_inj_iff.mp (hbp.trans hjb.symm)
    omega

/-- C2 witness: a synthetic row in which the two non-query entries share the
score `0.5`; in the sorted sequence they sit at positions 1 and 2 in ascending
catalog-index order. -/
theorem equal_scores_keep_index_order_witness :
    (sortedDistances [1, 1/2, 1/2])[1]? = some (1, 1/2) ∧
    (sortedDistances [1, 1/2, 1/2])[2]? = some (2, 1/2) ∧
    ((1 : ℕ), (1 : ℚ)/2).1 < ((2 : ℕ), (1 : ℚ)/2).1 := by
  have h1 : (sortedDistances [1, 1/2, 1/2])[1]? = some (1, 1/2) := by
    norm_num [sortedDistances, List.insertionSort, List.orderedInsert,
      List.enum, List.enumFrom, scoreGE]
  have h2 : (sortedDistances [1, 1/2, 1/2])[2]? = some (2, 1/2) := by
    norm_num [sortedDistances, List.insertionSort, List.orderedInsert,
      List.enum, List.enumFrom, scoreGE]
  exact ⟨h1, h2,
    equal_scores_keep_index_order [1, 1/2, 1/2] 1 2 (1, 1/2) (2, 1/2) h1 h2
      (by norm_num) rfl⟩

/-- C9: on every successful call the similarity scores of the returned
sequence are non-increasing: whenever position `i` precedes position `j` in
the result list, the score at `j` is at most the score at `i`. -/
theorem result_scores_non_increasing (movies : List String)
    (sim : List (List ℚ)) (t : String) (k : ℤ) (recs : List RecEntry)
    (h : get_recommendations movies sim t k = (recs, none))
    (i j : ℕ) (x y : RecEntry) (hx : recs[i]? = some x) (hy : recs[j]? = some y)
    (hij : i < j) : y.similarity_score ≤ x.similarity_score := by
  unfold get_recommendations at h
  by_cases hmem : t ∈ movies
  · rw [if_pos hmem] at h
    cases hc : recommendCore movies sim t k with
    | error e =>
      rw [hc] at h
      simp [wrapCore] at h
    | ok recs' =>
      rw [hc] at h
      simp only [wrapCore, Prod.mk.injEq] at h
      obtain ⟨hre, -⟩ := h
      rw [hre] at hc
      unfold recommendCore recommendAt at hc
      cases hrow : sim[movieIndexOf movies t]? with
      | none => rw [hrow] at hc; cases hc
      | some row =>
        rw [hrow] at hc
        have hscores := recTitles_ok_scores movies (selectedPairs row k) recs hc
        have hsorted : (selectedPairs row k).Pairwise scoreGE :=
          (sortedDistances_pairwise row).sublist
            (pySlice_sublist (sortedDistances row) 1 (k + 1))
        have hmapped : (recs.map RecEntry.similarity_score).Pairwise
            (fun u v : ℚ => v ≤ u) := by
          rw [hscores]
          exact hsorted.map _ (fun a b hab => displayScore_mono hab)
        obtain ⟨hi, hxi⟩ := List.getElem?_eq_some.mp hx
        obtain ⟨hj, hyj⟩ := List.getElem?_eq_some.mp hy
        have him : i < (recs.map RecEntry.similarity_score).length := by
          simpa using hi
        have hjm : j < (recs.map RecEntry.similarity_score).length := by
          simpa using hj
        have := List.pairwise_iff_get.mp hmapped ⟨i, him⟩ ⟨j, hjm⟩ hij
        simpa [List.get_eq_getElem, List.getElem_map, hxi, hyj] using this
  · rw [if_neg hmem] at h
    cases h

/-- C9 witness: a concrete successful call whose two returned scores are
`75.0` then `25.0`. -/
theorem result_scores_non_increasing_witness :
    get_recommendations ["A", "B", "C"]
      [[1, 3/4, 1/4], [3/4, 1, 1/2], [1/4, 1/2, 1]] "A" 2
      = ([⟨"B", 75⟩, ⟨"C", 25⟩], none) ∧
    (⟨"C", 25⟩ : RecEntry).similarity_score
      ≤ (⟨"B", 75⟩ : RecEntry).similarity_score := by
  have heval : get_recommendations ["A", "B", "C"]
      [[1, 3/4, 1/4], [3/4, 1, 1/2], [1/4, 1/2, 1]] "A" 2
      = ([⟨"B", 75⟩, ⟨"C", 25⟩], none) := by
    norm_num [get_recommendations, recommendCore, recommendAt, movieIndexOf,
      sortedDistances, selectedPairs, pySlice, recTitles, wrapCore,
      displayScore, round1, roundHalfEven, List.insertionSort,
      List.orderedInsert, List.enum, List.enumFrom, List.findIdx,
      List.findIdx.go, scoreGE]
  exact ⟨heval,
    result_scores_non_increasing ["A", "B", "C"]
      [[1, 3/4, 1/4], [3/4, 1, 1/2], [1/4, 1/2, 1]] "A" 2
      [⟨"B", 75⟩, ⟨"C", 25⟩] heval 0 1 ⟨"B", 75⟩ ⟨"C", 25⟩ rfl rfl
      (by norm_num)⟩

/-- C6: for an in-catalog title with a square matrix row, request sizes
outside `1..N-1` clamp instead of erroring: every call succeeds (the error
component is `None`); a request of `N` or more returns all `N - 1` candidate
entries (fewer than requested, never an error), and a non-positive request
also succeeds, with at most `N - 1` entries. -/
theorem out_of_range_k_clamps (movies : List String) (sim : List (List ℚ))
    (t : String) (row : List ℚ) (hmem : t ∈ movies)
    (hrow : sim[movieIndexOf movies t]? = some row)
    (hsq : row.length = movies.length) :
    ∀ k : ℤ,
      (get_recommendations movies sim t k).2 = none ∧
      ((movies.length : ℤ) ≤ k →
        (get_recommendations movies sim t k).1.length = movies.length - 1) ∧
      (k ≤ 0 → (get_recommendations movies sim t k).1.length
        ≤ movies.length - 1) := by
  intro k
  have hN : 1 ≤ movies.length := List.length_pos.mpr (List.ne_nil_of_mem hmem)
  rw [get_recommendations_ok movies sim t row k hmem hrow hsq]
  refine ⟨rfl, ?_, ?_⟩
  · intro hk
    simp only [List.length_map]
    rw [selectedPairs, pySlice_one_length_of_nonneg _ (by omega),
      length_sortedDistances, hsq]
    omega
  · intro hk
    simp only [List.length_map]
    have := pySlice_one_length_le (sortedDistances row) (k + 1)
    rw [length_sortedDistances, hsq] at this
    exact this

/-- C6 witness: on a three-title catalog, a request of 7 returns exactly the
2 available entries with no error, and a request of 0 returns at most 2
entries with no error. -/
theorem out_of_range_k_clamps_witness :
    ((get_recommendations ["A", "B", "C"]
        [[1, 3/4, 1/4], [3/4, 1, 1/2], [1/4, 1/2, 1]] "A" 7).2 = none ∧
      (get_recommendations ["A", "B", "C"]
        [[1, 3/4, 1/4], [3/4, 1, 1/2], [1/4, 1/2, 1]] "A" 7).1.length = 2) ∧
    ((get_recommendations ["A", "B", "C"]
        [[1, 3/4, 1/4], [3/4, 1, 1/2], [1/4, 1/2, 1]] "A" 0).2 = none ∧
      (get_recommendations ["A", "B", "C"]
        [[1, 3/4, 1/4], [3/4, 1, 1/2], [1/4, 1/2, 1]] "A" 0).1.length ≤ 2) := by
  have h7 := out_of_range_k_clamps ["A", "B", "C"]
    [[1, 3/4, 1/4], [3/4, 1, 1/2], [1/4, 1/2, 1]] "A" [1, 3/4, 1/4]
    (by decide) rfl (by decide) 7
  have h0 := out_of_range_k_clamps ["A", "B", "C"]
    [[1, 3/4, 1/4], [3/4, 1, 1/2], [1/4, 1/2, 1]] "A" [1, 3/4, 1/4]
    (by decide) rfl (by decide) 0
  exact ⟨⟨h7.1, h7.2.1 (by norm_num)⟩, ⟨h0.1, h0.2.2 (by norm_num)⟩⟩

/-- When one entry of the row is strictly greater than all others, it heads
the sorted candidate sequence. -/
theorem sortedDistances_head_of_strict_max (row : List ℚ) (i : ℕ)
    (hi : i < row.length)
    (hmax : ∀ j, j ≠ i → ∀ (hj : j < row.length),
      row.get ⟨j, hj⟩ < row.get ⟨i, hi⟩) :
    ∃ rest, sortedDistances row = (i, row.get ⟨i, hi⟩) :: rest := by
  have hlen : 0 < (sortedDistances row).length := by
    rw [length_sortedDistances]
    omega
  obtain ⟨h0, rest, hcons⟩ : ∃ h0 rest, sortedDistances row = h0 :: rest := by
    cases hs : sortedDistances row with
    | nil => rw [hs] at hlen; simp at hlen
    | cons h0 rest => exact ⟨h0, rest, rfl⟩
  refine ⟨rest, ?_⟩
  rw [hcons]
  have hmem0 : h0 ∈ sortedDistances row := by rw [hcons]; exact List.mem_cons_self _ _
  obtain ⟨hb0, he0⟩ := List.getElem?_eq_some.mp (mem_sortedDistances hmem0)
  have hmemi : (i, row.get ⟨i, hi⟩) ∈ sortedDistances row := by
    apply (sortedDistances_perm row).mem_iff.mpr
    rw [List.mem_enum_iff_getElem?]
    simp [List.getElem?_eq_getElem hi, List.get_eq_getElem]
  rcases List.mem_cons.mp (hcons ▸ hmemi) with he | hr
  · rw [← he]
  · have hpw := sortedDistances_pairwise row
    rw [hcons] at hpw
    have hge : scoreGE h0 (i, row.get ⟨i, hi⟩) :=
      (List.pairwise_cons.mp hpw).1 _ hr
    by_cases h01 : h0.1 = i
    · have hsnd : h0.2 = row.get ⟨i, hi⟩ := by
        rw [List.get_eq_getElem]
        rw [← he0]
        congr 1
      have : h0 = (i, row.get ⟨i, hi⟩) := Prod.ext_iff.mpr ⟨h01, hsnd⟩
      rw [this]
    · exfalso
      have hlt := hmax h0.1 h01 hb0
      have hge' : row.get ⟨i, hi⟩ ≤ h0.2 := hge
      rw [List.get_eq_getElem, List.get_eq_getElem] at hlt
      rw [he0] at hlt
      rw [List.get_eq_getElem] at hge'
      linarith

/-- C1 amended: for an in-catalog title with a square matrix row, the call
always succeeds; for `1 ≤ k ≤ N-1` it returns exactly `k` entries, and for
`k > N-1` exactly `N-1` entries; and when the query's self-score is strictly
greater than every other entry of its row, the entry at the query's own
catalog index is never among those selected. -/
theorem returns_k_entries_excluding_query (movies : List String)
    (sim : List (List ℚ)) (t : String) (row : List ℚ) (hmem : t ∈ movies)
    (hrow : sim[movieIndexOf movies t]? = some row)
    (hsq : row.length = movies.length) :
    ∀ k : ℤ,
      (get_recommendations movies sim t k).2 = none ∧
      (1 ≤ k → k ≤ (movies.length : ℤ) - 1 →
        ((get_recommendations movies sim t k).1.length : ℤ) = k) ∧
      ((movies.length : ℤ) - 1 < k →
        (get_recommendations movies sim t k).1.length = movies.length - 1) ∧
      ((∀ j, j ≠ movieIndexOf movies t → j < row.length →
          row.getD j 0 < row.getD (movieIndexOf movies t) 0) →
        movieIndexOf movies t ∉ (selectedPairs row k).map Prod.fst) := by
  intro k
  have hN : 1 ≤ movies.length := List.length_pos.mpr (List.ne_nil_of_mem hmem)
  have hidx : movieIndexOf movies t < movies.length := by
    unfold movieIndexOf
    exact List.findIdx_lt_length_of_exists ⟨t, hmem, by simp⟩
  have hiq : movieIndexOf movies t < row.length := by omega
  rw [get_recommendations_ok movies sim t row k hmem hrow hsq]
  refine ⟨rfl, ?_, ?_, ?_⟩
  · intro hk1 hk2
    simp only [List.length_map]
    rw [selectedPairs, pySlice_one_length_of_nonneg _ (by omega),
      length_sortedDistances, hsq]
    omega
  · intro hk
    simp only [List.length_map]
    rw [selectedPairs, pySlice_one_length_of_nonneg _ (by omega),
      length_sortedDistances, hsq]
    omega
  · intro hmax
    have hmax' : ∀ j, j ≠ movieIndexOf movies t → ∀ (hj : j < row.length),
        row.get ⟨j, hj⟩ < row.get ⟨movieIndexOf movies t, hiq⟩ := by
      intro j hne hj
      have h := hmax j hne hj
      simpa [List.getD_eq_getElem?_getD, List.getElem?_eq_getElem, hj, hiq,
        List.get_eq_getElem] using h
    obtain ⟨rest, hhead⟩ :=
      sortedDistances_head_of_strict_max row (movieIndexOf movies t) hiq hmax'
    intro hcontra
    obtain ⟨p, hp, hp1⟩ := List.mem_map.mp hcontra
    have hp' : p ∈ pySlice (sortedDistances row) 1 (k + 1) := hp
    have hpd : p ∈ (sortedDistances row).drop 1 :=
      (pySlice_one_sublist_drop (sortedDistances row) (k + 1)).mem hp'
    rw [hhead] at hpd
    simp only [List.drop_succ_cons, List.drop_zero] at hpd
    have hndf : ((sortedDistances row).map Prod.fst).Nodup := by
      have hperm : List.Perm ((sortedDistances row).map Prod.fst)
          (row.enum.map Prod.fst) := (sortedDistances_perm row).map _
      rw [List.enum_map_fst] at hperm
      exact hperm.nodup_iff.mpr (List.nodup_range _)
    rw [hhead] at hndf
    simp only [List.map_cons] at hndf
    exact (List.nodup_cons.mp hndf).1 (List.mem_map.mpr ⟨p, hpd, hp1⟩)

/-- C1 counterexample: in the catalog `["A", "B"]` with the all-ones matrix,
the self-score of `"B"` equals the maximum of its row (`1.0`, tied with the
entry at index 0), yet `recommend("B", 1)` returns the entry `"B"` itself:
the stable sort puts the tied index 0 first, position 0 is dropped, and the
query survives. -/
theorem self_max_counterexample :
    ([1, 1] : List ℚ).getD 0 0
        ≤ ([1, 1] : List ℚ).getD (movieIndexOf ["A", "B"] "B") 0 ∧
    ([1, 1] : List ℚ).getD 1 0
        ≤ ([1, 1] : List ℚ).getD (movieIndexOf ["A", "B"] "B") 0 ∧
    get_recommendations ["A", "B"] [[1, 1], [1, 1]] "B" 1
      = ([⟨"B", 100⟩], none) := by
  have hidx : movieIndexOf ["A", "B"] "B" = 1 := by decide
  refine ⟨by rw [hidx]; norm_num [List.getD_cons_succ, List.getD_cons_zero],
    by rw [hidx], ?_⟩
  · have hab : ("A" == "B") = false := by decide
    norm_num [get_recommendations, recommendCore, recommendAt, movieIndexOf,
      sortedDistances, selectedPairs, pySlice, recTitles, wrapCore,
      displayScore, round1, roundHalfEven, List.insertionSort,
      List.orderedInsert, List.enum, List.enumFrom, List.findIdx,
      List.findIdx.go, scoreGE, hab]

/-- C1 witness: a three-title catalog whose query row has a strict maximum at
the query's own index; `recommend("A", 2)` succeeds with exactly two entries
and the query index is not selected. -/
theorem returns_k_entries_excluding_query_witness :
    (get_recommendations ["A", "B", "C"]
        [[1, 3/4, 1/4], [3/4, 1, 1/2], [1/4, 1/2, 1]] "A" 2).2 = none ∧
    ((get_recommendations ["A", "B", "C"]
        [[1, 3/4, 1/4], [3/4, 1, 1/2], [1/4, 1/2, 1]] "A" 2).1.length : ℤ) = 2 ∧
    movieIndexOf ["A", "B", "C"] "A"
      ∉ (selectedPairs [1, 3/4, 1/4] 2).map Prod.fst := by
  have h := returns_k_entries_excluding_query ["A", "B", "C"]
    [[1, 3/4, 1/4], [3/4, 1, 1/2], [1/4, 1/2, 1]] "A" [1, 3/4, 1/4]
    (by decide) rfl (by decide) 2
  refine ⟨h.1, h.2.1 (by norm_num) (by norm_num), h.2.2.2 ?_⟩
  intro j hne hj
  have hidx : movieIndexOf ["A", "B", "C"] "A" = 0 := by decide
  rw [hidx] at hne ⊢
  simp only [List.length_cons, List.length_nil] at hj
  interval_cases j
  · exact absurd rfl hne
  · norm_num [List.getD_cons_succ, List.getD_cons_zero]
  · norm_num [List.getD_cons_succ, List.getD_cons_zero]

end MovieRec
